import Mathlib

/-!
Shallow embedding of `github_dump_to_markdown.py` (repository
`avan06/github_dump_to_markdown`).

Modelling conventions:
* JSON response documents are modelled as structures mirroring the GraphQL
  query shapes; a missing path is `Option.none`.
* Timestamps (`createdAt` / `committedDate`, ISO strings parsed by
  `datetime.fromisoformat` in the source) are modelled as integers ordered the
  same way as the parsed datetimes; `strftime` is modelled by `toString`.
* The network is modelled as the list of page responses the server returns, in
  fetch order; `none` in that list is a page whose fetch or parse raises an
  exception, which the source catches in the outer handler and converts to a
  `None` result.
* Python strings are modelled as `List Char`; Python `None` results as
  `Option.none`; Python truthiness of lists (empty list is falsy) is modelled
  explicitly where the source relies on it.
-/

/-- One entry of a GraphQL `errors` array; the source reads
`errors[0].get("type")`, modelled by the single field `etype`. -/
structure GError where
  etype : String
deriving DecidableEq, Repr

/-- A node of `comments.nodes[].replies.nodes[]` in the discussion query. -/
structure ReplyNode where
  id : String
  body : String
  author : Option String
  createdAt : Int
deriving DecidableEq, Repr

/-- A node of `comments.nodes[]` in the discussion/issue/pullRequest queries.
For issue/pullRequest responses the `replies` field is absent in the JSON; the
source never reads it for those kinds, so it is carried here uniformly. -/
structure CommentNode where
  id : String
  body : String
  author : Option String
  createdAt : Int
  replies : List ReplyNode
deriving DecidableEq, Repr

/-- The `pageInfo` object of a paginated connection. -/
structure PageInfo where
  hasNextPage : Bool
  endCursor : Option String
deriving DecidableEq, Repr

/-- The `comments` connection of a thread resource: `totalCount`, `pageInfo`,
and the page's `nodes` (a node may be JSON `null`, hence `Option`). -/
structure CommentsConn where
  totalCount : Nat
  pageInfo : PageInfo
  nodes : List (Option CommentNode)
deriving DecidableEq, Repr

/-- The `repository.<dumptype>` object of a discussion/issue/pullRequest
response (`state` is absent for discussions; the source only reads it for the
other two kinds). -/
structure ThreadResource where
  url : String
  state : String
  title : String
  body : String
  author : Option String
  createdAt : Int
  comments : CommentsConn
deriving DecidableEq, Repr

/-- A whole GraphQL response for a thread query: the `errors` array (empty
when the key is absent) and the `repository.<dumptype>` path. -/
structure ThreadResponse where
  errors : List GError
  resource : Option ThreadResource
deriving DecidableEq, Repr

/-- The `Reply` dataclass of the source. -/
structure Reply where
  id : String
  body : String
  author : String
  created_at : Int
deriving DecidableEq, Repr

/-- The `Comment` dataclass of the source. -/
structure Comment where
  id : String
  body : String
  author : String
  created_at : Int
  replies : List Reply
deriving DecidableEq, Repr

/-- The `QueryResult` dataclass of the source. -/
structure QueryResult where
  url : String
  dumptype : String
  number : Nat
  state : String
  body : String
  title : String
  author : String
  created_at : Int
  comments : List Comment
deriving DecidableEq, Repr

/-- The `CommitQueryResult` dataclass of the source. -/
structure CommitQueryResult where
  dumptype : String
  oid : String
  message : String
  committedDate : Int
  author : String
deriving DecidableEq, Repr

/-- The `node` of one `history.edges[]` entry in the commits query. -/
structure CommitNode where
  message : String
  oid : String
  committedDate : Int
  author : Option String
deriving DecidableEq, Repr

/-- The `repository.ref.target.history` object of one commits-query page. -/
structure HistoryPage where
  pageInfo : PageInfo
  edges : List CommitNode
deriving DecidableEq, Repr

/-- A whole GraphQL response for the commits query: `errors` plus the
`repository.ref.target.history` path (`none` when `repository.ref` is
missing). -/
structure CommitsResponse where
  errors : List GError
  refHistory : Option HistoryPage
deriving DecidableEq, Repr

/-- Build a `Reply` from a reply node (source lines 377-384): a missing author
maps to the sentinel string. -/
def buildReply (r : ReplyNode) : Reply :=
  { id := r.id, body := r.body, author := r.author.getD "None",
    created_at := r.createdAt }

/-- Build a `Comment` from a non-null comment node (source lines 370-392):
replies are populated only when `dumptype == "discussion"`. -/
def buildComment (dumptype : String) (c : CommentNode) : Comment :=
  { id := c.id, body := c.body, author := c.author.getD "None",
    created_at := c.createdAt,
    replies := if dumptype = "discussion" then c.replies.map buildReply else [] }

/-- The comments contributed by one page: the source skips JSON-null nodes
(`if not comment: continue`) and builds a `Comment` from each remaining node,
in order. -/
def pageComments (dumptype : String) (nodes : List (Option CommentNode)) : List Comment :=
  (nodes.filterMap id).map (buildComment dumptype)

/-- The comments pagination loop (source lines 361-399).  `page` is the
`comments` connection of the current response; `rest` is the sequence of
responses the server will return for subsequent cursor fetches.  A `none`
response, or a response whose `repository.<dumptype>` path is missing, makes
the source raise inside the loop; the outer handler then returns Python
`None`, modelled as `Option.none` here. -/
def aggCommentsGo (dumptype : String) : CommentsConn → List (Option ThreadResponse) → Option (List Comment)
  | page, rest =>
    let cs := pageComments dumptype page.nodes
    if page.pageInfo.hasNextPage then
      match rest with
      | [] => none
      | none :: _ => none
      | some r :: rest' =>
        match r.resource with
        | none => none
        | some res =>
          (aggCommentsGo dumptype res.comments rest').map (fun more => cs ++ more)
    else
      some cs

/-- The type of the first error of an `errors` array, as read by
`result["errors"][0].get("type", {})` (only evaluated under a non-emptiness
guard in the source). -/
def firstErrorType (errors : List GError) : String :=
  match errors with
  | [] => ""
  | e :: _ => e.etype

/-- Result of one `fetch_github_data` call for thread kinds: the returned
value and the log lines printed (abbreviated to fixed tags). -/
structure FetchOutcome where
  result : Option QueryResult
  logs : List String
deriving DecidableEq, Repr

/-- `fetch_github_data` for `dumptype` in discussion/issue/pullRequest
(source lines 300-411 and the handler at 459-462), driven by the list of
server responses.  Mirrors the source order: the unconditional
`if result.get("errors")` check (lines 340-342) runs before the
resource-path check (lines 344-349), whose inner NOT_FOUND-filtered logging
is therefore only reachable with an empty `errors` array. -/
def fetch_github_data_thread (dumptype : String) (number : Nat)
    (responses : List (Option ThreadResponse)) : FetchOutcome :=
  match responses with
  | [] => { result := none, logs := ["traceback"] }
  | none :: _ => { result := none, logs := ["traceback"] }
  | some r :: rest =>
    if r.errors ≠ [] then
      { result := none, logs := ["GraphQL Errors"] }
    else
      match r.resource with
      | none =>
        { result := none,
          logs := if r.errors ≠ [] ∧ firstErrorType r.errors ≠ "NOT_FOUND"
                  then ["Error"] else [] }
      | some res =>
        match aggCommentsGo dumptype res.comments rest with
        | none => { result := none, logs := ["traceback"] }
        | some cs =>
          { result := some
              { url := res.url, dumptype := dumptype, number := number,
                state := if dumptype ≠ "discussion" then res.state else "",
                title := res.title, body := res.body,
                author := res.author.getD "None",
                created_at := res.createdAt, comments := cs },
            logs := [] }

/-- Build a `CommitQueryResult` from one history edge node
(source lines 420-428). -/
def buildCommitRecord (n : CommitNode) : CommitQueryResult :=
  { dumptype := "commits", oid := n.oid, message := n.message,
    committedDate := n.committedDate, author := n.author.getD "None" }

/-- The body of the commit-history pagination loop (source lines 416-442),
starting from the current page's `history` object: collect the page's edges;
while `hasNextPage`, fetch the next response — an unfetchable/unparsable
response (`none`) raises and becomes `None`, a response with a non-empty
`errors` array returns `None` (lines 440-442), and a response whose
`repository.ref` path is missing returns `None` at the top of the next
iteration (lines 417, 433-434). -/
def aggCommitsPages : HistoryPage → List (Option CommitsResponse) → Option (List CommitQueryResult)
  | page, rest =>
    let cs := page.edges.map buildCommitRecord
    if page.pageInfo.hasNextPage then
      match rest with
      | [] => none
      | none :: _ => none
      | some r' :: rest' =>
        if r'.errors = [] then
          match r'.refHistory with
          | none => none
          | some page' =>
            (aggCommitsPages page' rest').map (fun more => cs ++ more)
        else none
    else
      some cs

/-- The commit-history aggregation (source lines 412-444) for a first
response: a missing `repository.ref` path yields `None`, otherwise the
pagination loop runs. -/
def aggCommitsGo (r : CommitsResponse) (rest : List (Option CommitsResponse)) :
    Option (List CommitQueryResult) :=
  match r.refHistory with
  | none => none
  | some page => aggCommitsPages page rest

/-- `fetch_github_data` for `dumptype == "commits"`: the unconditional
first-response errors check (lines 340-342), then the history loop. -/
def fetch_github_data_commits (responses : List (Option CommitsResponse)) :
    Option (List CommitQueryResult) :=
  match responses with
  | [] => none
  | none :: _ => none
  | some r :: rest =>
    if r.errors ≠ [] then none else aggCommitsGo r rest

/-- The character class kept by `re.sub(r'[^\w\-_. ]', '_', filename)`:
word characters (modelled as alphanumerics and underscore), hyphen, period
and space. -/
def keptChar (c : Char) : Bool :=
  c.isAlphanum || c = '_' || c = '-' || c = '.' || c = ' '

/-- The `re.sub` replacement pass of `sanitize_filename` (source line 485):
every character outside the kept class becomes an underscore. -/
def pySubSanitize (s : List Char) : List Char :=
  s.map (fun c => if keptChar c then c else '_')

/-- Python `str.rfind`: the greatest index at which `c` occurs, or `-1`. -/
def pyRfind : List Char → Char → Int
  | [], _ => -1
  | a :: rest, c =>
    let r := pyRfind rest c
    if 0 ≤ r then r + 1
    else if a = c then 0 else -1

/-- The separator characters of the truncation logic: the `rfind` targets and
the `rstrip("_- ")` strip set are both exactly space, underscore, hyphen. -/
def isSepChar (c : Char) : Bool :=
  c = ' ' || c = '_' || c = '-'

/-- Python `str.rstrip("_- ")`: remove the maximal trailing run of separator
characters. -/
def pyRstrip : List Char → List Char
  | [] => []
  | c :: rest =>
    let r := pyRstrip rest
    if r.isEmpty && isSepChar c then [] else c :: r

/-- `max(truncated.rfind(" "), truncated.rfind("_"), truncated.rfind("-"))`
(source line 492). -/
def lastSpaceOf (truncated : List Char) : Int :=
  max (pyRfind truncated ' ') (max (pyRfind truncated '_') (pyRfind truncated '-'))

/-- `sanitize_filename` (source lines 477-495), on `List Char`. -/
def sanitize_filename (filename : List Char) (max_length : Nat) : List Char :=
  let f := pySubSanitize filename
  if f.length ≤ max_length then f
  else
    let truncated := f.take max_length
    let last_space := lastSpaceOf truncated
    if 0 < last_space then
      pyRstrip (truncated.take last_space.toNat)
    else truncated

/-- Python `f"{n:03}"`: decimal rendering zero-padded to at least 3 digits. -/
def pad3 (n : Nat) : String :=
  let s := toString n
  if s.length < 3 then String.mk (List.replicate (3 - s.length) '0') ++ s else s

/-- The first line of the title, `title.split('\n')[0]` (source line 500). -/
def firstLine (title : List Char) : List Char :=
  title.takeWhile (fun c => c ≠ '\n')

/-- `create_filename` (source lines 473-503). -/
def create_filename (dumptype : String) (number : Nat) (title : List Char) : List Char :=
  dumptype.data ++ (pad3 number).data ++ ['_'] ++ sanitize_filename (firstLine title) 120

/-- `datetime.strftime('%Y-%m-%d %H:%M:%S %Z')`, on the integer timestamp
model: an injective rendering of the timestamp. -/
def fmtTime (t : Int) : String := toString t

/-- The level-2 comment heading of `output_markdown` (source line 525). -/
def commentHeading (i : Nat) (c : Comment) : String :=
  "## **Comment " ++ toString (i + 1) ++ "**, **@" ++ c.author
    ++ "**   **at**: " ++ fmtTime c.created_at

/-- The level-3 reply heading of `output_markdown` (source line 531). -/
def replyHeading (j : Nat) (r : Reply) : String :=
  "### **Reply " ++ toString (j + 1) ++ "**, **@" ++ r.author
    ++ "**   **at**: " ++ fmtTime r.created_at

/-- The reply lines of one comment block (source lines 530-532). -/
def renderReplies (replies : List Reply) : List String :=
  replies.enum.flatMap (fun p => [replyHeading p.1 p.2, p.2.body])

/-- One comment's block of `markdown_content` entries (source lines 523-535):
heading, body, the replies lines guarded by Python truthiness of the replies
list, and the trailing horizontal rule. -/
def renderCommentBlock (i : Nat) (c : Comment) : List String :=
  [commentHeading i c, c.body]
    ++ (if c.replies.isEmpty then [] else renderReplies c.replies)
    ++ ["---"]

/-- The `markdown_content` entries of `output_markdown`
(source lines 514-538). -/
def output_markdown_content (q : QueryResult) : List String :=
  ["# [" ++ q.title ++ "](" ++ q.url ++ ")",
   "**@" ++ q.author ++ "**   **Created at**: " ++ fmtTime q.created_at ++ "    " ++ q.state,
   q.body, "---"]
    ++ q.comments.enum.flatMap (fun p => renderCommentBlock p.1 p.2)

/-- The sort key comparison of `commitsQueryResult.sort(key=..., reverse=True)`
(source line 581): commit `a` may precede `b` when `b`'s date is at most
`a`'s. -/
def commitDateDesc (a b : CommitQueryResult) : Bool :=
  decide (b.committedDate ≤ a.committedDate)

/-- Python's stable in-place sort by `committedDate` descending
(source line 581), modelled as a stable merge sort returning the new list
value. -/
def pySortByDateDesc (commits : List CommitQueryResult) : List CommitQueryResult :=
  commits.mergeSort commitDateDesc

/-- One commit's block of `markdown_content` entries
(source lines 585-588). -/
def commitEntry (counter : Nat) (c : CommitQueryResult) : List String :=
  ["## Commit " ++ pad3 counter ++ ": " ++ c.oid,
   "**Author**: @" ++ c.author ++ "   **Committed at**: " ++ fmtTime c.committedDate,
   c.message, "---"]

/-- The commit rendering loop of `output_commits_to_single_markdown`
(source lines 583-589): the counter starts at the total commit count and
decrements. -/
def renderCommitsLoop : List CommitQueryResult → Nat → List String
  | [], _ => []
  | c :: rest, counter => commitEntry counter c ++ renderCommitsLoop rest (counter - 1)

/-- `output_commits_to_single_markdown` (source lines 564-593).  The source
sorts its argument list in place via `list.sort`; this mutation is modelled
by returning the caller-visible final list state as the second component,
next to the `markdown_content` entries. -/
def output_commits_to_single_markdown (commits : List CommitQueryResult)
    (branch : String) : List String × List CommitQueryResult :=
  let sorted := pySortByDateDesc commits
  (["# Commits on branch: " ++ branch, "---"]
     ++ renderCommitsLoop sorted sorted.length,
   sorted)

/-- Tally kept by `main` (source lines 727-728). -/
structure Tally where
  fetch_processed : Nat
  fetch_failed : Nat
deriving DecidableEq, Repr

/-- Python truthiness of an optional list: `None` and the empty list are both
falsy. -/
def pyTruthyList {α : Type} : Option (List α) → Bool
  | none => false
  | some l => !l.isEmpty

/-- The commits branch of `main` (source lines 753-768): test
`if commits_query_result:` by Python truthiness; on success write one
document and set `fetch_processed = len(commits_query_result)`; otherwise
count one failure and write nothing. -/
def runCommitsBranch (r : Option (List CommitQueryResult)) (branch : String) :
    Tally × Option (List String) :=
  if pyTruthyList r then
    match r with
    | some l =>
      ({ fetch_processed := l.length, fetch_failed := 0 },
       some (output_commits_to_single_markdown l branch).1)
    | none => ({ fetch_processed := 0, fetch_failed := 1 }, none)
  else
    ({ fetch_processed := 0, fetch_failed := 1 }, none)

/-- One iteration of the per-number loop of `main` (source lines 730-752):
a truthy result writes a document and increments `fetch_processed`, an absent
result increments `fetch_failed`.  The second component counts documents
written. -/
def runThreadStep (acc : Tally × Nat) (r : Option QueryResult) : Tally × Nat :=
  match r with
  | some _ =>
    ({ fetch_processed := acc.1.fetch_processed + 1,
       fetch_failed := acc.1.fetch_failed }, acc.2 + 1)
  | none =>
    ({ fetch_processed := acc.1.fetch_processed,
       fetch_failed := acc.1.fetch_failed + 1 }, acc.2)

/-- The whole per-number loop of `main` for thread kinds, over the fetch
results of the requested numbers in order. -/
def runThreadNumbers (results : List (Option QueryResult)) : Tally × Nat :=
  results.foldl runThreadStep ({ fetch_processed := 0, fetch_failed := 0 }, 0)

/-- The `markdown_content` entries of `output_commit_markdown`
(source lines 554-558). -/
def output_commit_markdown_content (c : CommitQueryResult) : List String :=
  ["# Commit: " ++ c.oid,
   "**Author**: @" ++ c.author ++ "   **Committed at**: " ++ fmtTime c.committedDate,
   c.message, "---"]

/-- The single-commit (`dumptype == "commit"`) branch of `main`
(source lines 773-792): a fetched `CommitQueryResult` is always truthy, so a
present result writes one document and increments `fetch_processed` by 1;
an absent result increments `fetch_failed`. -/
def runCommitSha (r : Option CommitQueryResult) : Tally × Option (List String) :=
  match r with
  | some c =>
    ({ fetch_processed := 1, fetch_failed := 0 },
     some (output_commit_markdown_content c))
  | none => ({ fetch_processed := 0, fetch_failed := 1 }, none)

/-- A well-formed fetched page sequence: every page but the last reports
`hasNextPage`, and the last does not. -/
def chainOK : List CommentsConn → Bool
  | [] => false
  | p :: rest =>
    match rest with
    | [] => !p.pageInfo.hasNextPage
    | _ :: _ => p.pageInfo.hasNextPage && chainOK rest

/-- `r` ends at a separator boundary of `f`: it is a prefix `f.take m` whose
next character in `f` is a space, underscore or hyphen. -/
def endsAtSepBoundary (f r : List Char) : Bool :=
  (List.range (f.length + 1)).any (fun m =>
    (r == f.take m) &&
      (match f[m]? with
       | some c => isSepChar c
       | none => false))

/-- `r` does not end in a space, underscore or hyphen. -/
def noTrailingSep (r : List Char) : Bool :=
  match r.getLast? with
  | none => true
  | some c => !isSepChar c

/-- The countdown sequence `[n, n-1, ..., 1]`. -/
def countdown : Nat → List Nat
  | 0 => []
  | n + 1 => (n + 1) :: countdown n

/-! Concrete example values used by the witnesses and counterexamples. -/

/-- A concrete comment node. -/
def exNode1 : CommentNode :=
  { id := "c1", body := "b1", author := some "u1", createdAt := 1, replies := [] }

/-- A concrete comment node. -/
def exNode2 : CommentNode :=
  { id := "c2", body := "b2", author := none, createdAt := 2, replies := [] }

/-- A concrete comment node. -/
def exNode3 : CommentNode :=
  { id := "c3", body := "b3", author := some "u3", createdAt := 3, replies := [] }

/-- A first-page thread resource reporting 3 comments, page 1 of 2. -/
def exRes0 : ThreadResource :=
  { url := "u", state := "OPEN", title := "t", body := "b", author := some "a",
    createdAt := 0,
    comments := { totalCount := 3,
                  pageInfo := { hasNextPage := true, endCursor := some "cur" },
                  nodes := [some exNode1, some exNode2] } }

/-- The second-page thread resource of the same aggregation. -/
def exRes1 : ThreadResource :=
  { url := "u", state := "OPEN", title := "t", body := "b", author := some "a",
    createdAt := 0,
    comments := { totalCount := 3,
                  pageInfo := { hasNextPage := false, endCursor := none },
                  nodes := [some exNode3] } }

/-- A first-page response whose resource path is missing and whose only
GraphQL error has type NOT_FOUND. -/
def exNotFoundResp : ThreadResponse :=
  { errors := [{ etype := "NOT_FOUND" }], resource := none }

/-- A concrete reply node. -/
def exReply : ReplyNode :=
  { id := "r1", body := "rb", author := some "ru", createdAt := 5 }

/-- A comment node that carries reply data. -/
def exNodeWithReplies : CommentNode :=
  { id := "c9", body := "b9", author := some "u9", createdAt := 9,
    replies := [exReply] }

/-- A commit record with the earliest timestamp (T1 = 2024-01-01). -/
def exC1 : CommitQueryResult :=
  { dumptype := "commits", oid := "T1", message := "m1",
    committedDate := 20240101, author := "a1" }

/-- A commit record with the latest timestamp (T2 = 2024-03-01). -/
def exC2 : CommitQueryResult :=
  { dumptype := "commits", oid := "T2", message := "m2",
    committedDate := 20240301, author := "a2" }

/-- A commit record with the middle timestamp (T3 = 2024-02-01). -/
def exC3 : CommitQueryResult :=
  { dumptype := "commits", oid := "T3", message := "m3",
    committedDate := 20240201, author := "a3" }

/-- A 121-character single-word title: longer than the limit and containing
no separator at all. -/
def exLongWord : List Char := List.replicate 121 'a'

/-- A long title with a space at index 60: 60 letters, a space, then 65 more
letters, 126 characters in all. -/
def exSepTitle : List Char :=
  List.replicate 60 'a' ++ ' ' :: List.replicate 65 'b'

/-! Helper lemmas about the comments aggregation loop. -/

/-- When every node of a page is non-null, the page contributes exactly one
comment per node. -/
theorem pageComments_length_all_some (dumptype : String) :
    ∀ nodes : List (Option CommentNode), (∀ n ∈ nodes, n.isSome = true) →
      (pageComments dumptype nodes).length = nodes.length := by
  intro nodes
  induction nodes with
  | nil => intro _; rfl
  | cons a t ih =>
    intro h
    have ha : a.isSome = true := h a (List.mem_cons_self a t)
    obtain ⟨x, hx⟩ := Option.isSome_iff_exists.mp ha
    subst hx
    have ht : ∀ n ∈ t, n.isSome = true := fun n hn => h n (List.mem_cons_of_mem _ hn)
    simp only [pageComments, List.filterMap_cons, List.map_cons, List.length_cons] at *
    exact congrArg (· + 1) (ih ht)

/-- Successful multipage aggregation is the in-order concatenation of the
per-page comment lists. -/
theorem aggCommentsGo_chain (dumptype : String) :
    ∀ (rs : List ThreadResource) (c0 : CommentsConn),
      chainOK (c0 :: rs.map ThreadResource.comments) = true →
      aggCommentsGo dumptype c0
          (rs.map (fun r => some { errors := [], resource := some r }))
        = some ((c0 :: rs.map ThreadResource.comments).flatMap
            (fun p => pageComments dumptype p.nodes)) := by
  intro rs
  induction rs with
  | nil =>
    intro c0 hchain
    simp only [chainOK, List.map_nil] at hchain
    have hnp : c0.pageInfo.hasNextPage = false := by
      cases h : c0.pageInfo.hasNextPage
      · rfl
      · rw [h] at hchain; exact absurd hchain (by decide)
    simp [aggCommentsGo, hnp]
  | cons r rs' ih =>
    intro c0 hchain
    simp only [chainOK, List.map_cons, Bool.and_eq_true] at hchain
    obtain ⟨h1, h2⟩ := hchain
    simp only [aggCommentsGo, h1, if_true, List.map_cons]
    rw [ih r.comments h2]
    simp [List.flatMap_cons]

/-- C1.  A successful thread aggregation over N pages yields exactly the
in-order concatenation, across pages in fetch order, of the non-null comment
nodes of each page; its length is the sum of the per-page comment counts;
and when the server's reported `totalCount` is consistent with the delivered
pages (all nodes non-null, `totalCount` the sum of the page node counts), the
final length equals the reported total-comment-count. -/
theorem thread_aggregation_concat (dumptype : String) (res0 : ThreadResource)
    (rs : List ThreadResource)
    (hchain : chainOK (res0.comments :: rs.map ThreadResource.comments) = true) :
    aggCommentsGo dumptype res0.comments
        (rs.map (fun r => some { errors := [], resource := some r }))
      = some ((res0.comments :: rs.map ThreadResource.comments).flatMap
          (fun p => pageComments dumptype p.nodes))
    ∧ ((res0.comments :: rs.map ThreadResource.comments).flatMap
          (fun p => pageComments dumptype p.nodes)).length
        = ((res0.comments :: rs.map ThreadResource.comments).map
            (fun p => (pageComments dumptype p.nodes).length)).sum
    ∧ ((∀ p ∈ res0.comments :: rs.map ThreadResource.comments,
          ∀ n ∈ p.nodes, n.isSome = true) →
       res0.comments.totalCount
         = ((res0.comments :: rs.map ThreadResource.comments).map
              (fun p => p.nodes.length)).sum →
       ((res0.comments :: rs.map ThreadResource.comments).flatMap
            (fun p => pageComments dumptype p.nodes)).length
         = res0.comments.totalCount) := by
  refine ⟨aggCommentsGo_chain dumptype rs res0.comments hchain, ?_, ?_⟩
  · rw [List.length_flatMap]
    rfl
  · intro hsome htc
    rw [List.length_flatMap, htc]
    apply congrArg List.sum
    apply List.map_congr_left
    intro p hp
    exact pageComments_length_all_some dumptype p.nodes (hsome p hp)

/-- Witness for C1 at a concrete two-page aggregation with 3 comments. -/
theorem thread_aggregation_concat_witness :
    chainOK (exRes0.comments :: [exRes1].map ThreadResource.comments) = true
    ∧ aggCommentsGo "issue" exRes0.comments
        ([exRes1].map (fun r => some { errors := [], resource := some r }))
      = some ((exRes0.comments :: [exRes1].map ThreadResource.comments).flatMap
          (fun p => pageComments "issue" p.nodes)) :=
  ⟨by decide, (thread_aggregation_concat "issue" exRes0 [exRes1] (by decide)).1⟩

/-- A failing later page aborts the whole comments aggregation: any run of
good pages that all report `hasNextPage`, followed by an unfetchable page,
yields `none`. -/
theorem aggCommentsGo_fail_on_none (dumptype : String) :
    ∀ (goods : List ThreadResource) (c0 : CommentsConn)
      (rest : List (Option ThreadResponse)),
      c0.pageInfo.hasNextPage = true →
      (∀ r ∈ goods, (ThreadResource.comments r).pageInfo.hasNextPage = true) →
      aggCommentsGo dumptype c0
          (goods.map (fun r => some { errors := [], resource := some r })
            ++ none :: rest) = none := by
  intro goods
  induction goods with
  | nil =>
    intro c0 rest h0 _
    simp [aggCommentsGo, h0]
  | cons g goods' ih =>
    intro c0 rest h0 hall
    have hg : (ThreadResource.comments g).pageInfo.hasNextPage = true :=
      hall g (List.mem_cons_self g goods')
    have hall' : ∀ r ∈ goods', (ThreadResource.comments r).pageInfo.hasNextPage = true :=
      fun r hr => hall r (List.mem_cons_of_mem _ hr)
    simp [aggCommentsGo, h0, ih (ThreadResource.comments g) rest hg hall']

/-- A failing later page aborts the whole commit-history aggregation. -/
theorem aggCommitsGo_fail_on_none :
    ∀ (goods : List HistoryPage) (page : HistoryPage)
      (rest : List (Option CommitsResponse)),
      page.pageInfo.hasNextPage = true →
      (∀ p ∈ goods, p.pageInfo.hasNextPage = true) →
      aggCommitsGo { errors := [], refHistory := some page }
          (goods.map (fun p => some { errors := [], refHistory := some p })
            ++ none :: rest) = none := by
  intro goods
  induction goods with
  | nil =>
    intro page rest h0 _
    simp [aggCommitsGo, aggCommitsPages, h0]
  | cons g goods' ih =>
    intro page rest h0 hall
    have hg : g.pageInfo.hasNextPage = true := hall g (List.mem_cons_self g goods')
    have hall' : ∀ p ∈ goods', p.pageInfo.hasNextPage = true :=
      fun p hp => hall p (List.mem_cons_of_mem _ hp)
    have ihg := ih g rest hg hall'
    simp only [aggCommitsGo] at ihg
    simp [aggCommitsGo, aggCommitsPages, h0, ihg]

/-- C2.  In every multi-page aggregation (thread comments or commit history),
a failed fetch or parse of any page after the first makes the whole
aggregation return the absence signal — the already-collected pages are
discarded — and the driver then writes no document for the item and counts it
failed. -/
theorem later_page_failure_discards_all :
    (∀ (dumptype : String) (c0 : CommentsConn) (goods : List ThreadResource)
        (rest : List (Option ThreadResponse)),
        c0.pageInfo.hasNextPage = true →
        (∀ r ∈ goods, (ThreadResource.comments r).pageInfo.hasNextPage = true) →
        aggCommentsGo dumptype c0
            (goods.map (fun r => some { errors := [], resource := some r })
              ++ none :: rest) = none)
    ∧ (∀ (page : HistoryPage) (goods : List HistoryPage)
        (rest : List (Option CommitsResponse)),
        page.pageInfo.hasNextPage = true →
        (∀ p ∈ goods, p.pageInfo.hasNextPage = true) →
        aggCommitsGo { errors := [], refHistory := some page }
            (goods.map (fun p => some { errors := [], refHistory := some p })
              ++ none :: rest) = none)
    ∧ (∀ branch : String,
        runCommitsBranch none branch
          = ({ fetch_processed := 0, fetch_failed := 1 }, none))
    ∧ runThreadNumbers [none]
        = ({ fetch_processed := 0, fetch_failed := 1 }, 0) :=
  ⟨fun dumptype c0 goods rest h0 hall =>
      aggCommentsGo_fail_on_none dumptype goods c0 rest h0 hall,
   fun page goods rest h0 hall =>
      aggCommitsGo_fail_on_none goods page rest h0 hall,
   fun _ => rfl,
   rfl⟩

/-- Witness for C2: one good page reporting a next page, whose follow-up
fetch fails, aggregates to the absence signal. -/
theorem later_page_failure_discards_all_witness :
    exRes0.comments.pageInfo.hasNextPage = true
    ∧ aggCommentsGo "issue" exRes0.comments
        (([] : List ThreadResource).map
            (fun r => some { errors := [], resource := some r })
          ++ none :: []) = none :=
  ⟨by decide,
   later_page_failure_discards_all.1 "issue" exRes0.comments [] []
     (by decide) (by intro r hr; cases hr)⟩

/-- Counterexample to C3: a first-page response whose resource path is
missing and whose single GraphQL error has type NOT_FOUND is nevertheless
logged (by the unconditional errors check of source lines 340-342), so
"errors are logged iff an error's type is not NOT_FOUND" is false at this
input. -/
theorem notfound_error_still_logged_counterexample :
    (fetch_github_data_thread "issue" 1 [some exNotFoundResp]).result = none
    ∧ (fetch_github_data_thread "issue" 1 [some exNotFoundResp]).logs ≠ []
    ∧ ∀ e ∈ exNotFoundResp.errors, e.etype = "NOT_FOUND" := by
  refine ⟨rfl, by decide, ?_⟩
  intro e he
  simp only [exNotFoundResp, List.mem_singleton] at he
  rw [he]

/-- C3 amended.  For every first-page response whose top-level resource path
is missing, the fetcher returns the absence signal, and it logs the
response's GraphQL errors iff the response carries any errors at all,
whatever their type: a non-empty errors array triggers the earlier
unconditional log-and-return (source lines 340-342), so the NOT_FOUND-type
filter of lines 346-348 is unreachable. -/
theorem first_page_missing_resource_amended (dumptype : String) (number : Nat)
    (r : ThreadResponse) (hres : r.resource = none) :
    (fetch_github_data_thread dumptype number [some r]).result = none
    ∧ ((fetch_github_data_thread dumptype number [some r]).logs ≠ []
        ↔ r.errors ≠ []) := by
  by_cases herr : r.errors = []
  · simp [fetch_github_data_thread, herr, hres]
  · simp [fetch_github_data_thread, herr, hres]

/-- Witness for the amended C3 at the concrete NOT_FOUND response. -/
theorem first_page_missing_resource_amended_witness :
    exNotFoundResp.resource = none
    ∧ ((fetch_github_data_thread "issue" 1 [some exNotFoundResp]).result = none
       ∧ ((fetch_github_data_thread "issue" 1 [some exNotFoundResp]).logs ≠ []
           ↔ exNotFoundResp.errors ≠ [])) :=
  ⟨rfl, first_page_missing_resource_amended "issue" 1 exNotFoundResp rfl⟩

/-- The commit rendering loop pairs the commits, in order, with the countdown
counters total, total-1, ..., 1. -/
theorem renderCommitsLoop_eq_zip :
    ∀ l : List CommitQueryResult,
      renderCommitsLoop l l.length
        = (l.zip (countdown l.length)).flatMap (fun p => commitEntry p.2 p.1) := by
  intro l
  induction l with
  | nil => rfl
  | cons c rest ih =>
    simp only [List.length_cons, countdown, renderCommitsLoop, List.zip_cons_cons,
      List.flatMap_cons, Nat.add_sub_cancel]
    rw [ih]

/-- The sorted list is a permutation of the fetched list. -/
theorem pySortByDateDesc_perm (l : List CommitQueryResult) :
    (pySortByDateDesc l).Perm l :=
  List.mergeSort_perm l commitDateDesc

/-- The sorted list is pairwise descending by committed timestamp. -/
theorem pySortByDateDesc_sorted (l : List CommitQueryResult) :
    List.Pairwise (fun a b => b.committedDate ≤ a.committedDate)
      (pySortByDateDesc l) := by
  have h := @List.sorted_mergeSort CommitQueryResult commitDateDesc
    (fun a b c hab hbc => by
      simp only [commitDateDesc, decide_eq_true_eq] at *
      exact le_trans hbc hab)
    (fun a b => by
      simp only [commitDateDesc, Bool.or_eq_true, decide_eq_true_eq]
      exact Int.le_total b.committedDate a.committedDate)
    l
  exact h.imp (fun hab => by
    simpa only [commitDateDesc, decide_eq_true_eq] using hab)

/-- C4.  For every non-empty commit list, the rendered document lists the
commits sorted by committed timestamp descending — whatever the fetch
order — each under a level-2 heading whose counter is zero-padded to 3
digits and counts down from the total to 1; at timestamps
T1 = 2024-01-01, T2 = 2024-03-01, T3 = 2024-02-01 the rendered order is
T2, T3, T1 with counters 003, 002, 001. -/
theorem commit_history_rendered_descending (commits : List CommitQueryResult)
    (branch : String) (_hne : commits ≠ []) :
    (output_commits_to_single_markdown commits branch).1
        = ["# Commits on branch: " ++ branch, "---"]
          ++ ((pySortByDateDesc commits).zip (countdown commits.length)).flatMap
              (fun p => commitEntry p.2 p.1)
    ∧ (pySortByDateDesc commits).Perm commits
    ∧ List.Pairwise (fun a b => b.committedDate ≤ a.committedDate)
        (pySortByDateDesc commits)
    ∧ pySortByDateDesc [exC1, exC2, exC3] = [exC2, exC3, exC1]
    ∧ (output_commits_to_single_markdown [exC1, exC2, exC3] "main").1
        = ["# Commits on branch: main", "---",
           "## Commit 003: T2",
           "**Author**: @a2   **Committed at**: 20240301", "m2", "---",
           "## Commit 002: T3",
           "**Author**: @a3   **Committed at**: 20240201", "m3", "---",
           "## Commit 001: T1",
           "**Author**: @a1   **Committed at**: 20240101", "m1", "---"] := by
  have hlen : (pySortByDateDesc commits).length = commits.length :=
    (pySortByDateDesc_perm commits).length_eq
  have hsort : pySortByDateDesc [exC1, exC2, exC3] = [exC2, exC3, exC1] := by
    simp [pySortByDateDesc, List.mergeSort, List.splitInTwo, List.merge,
      commitDateDesc, exC1, exC2, exC3]
  refine ⟨?_, pySortByDateDesc_perm commits, pySortByDateDesc_sorted commits,
    hsort, ?_⟩
  · show ["# Commits on branch: " ++ branch, "---"]
          ++ renderCommitsLoop (pySortByDateDesc commits)
              (pySortByDateDesc commits).length
        = _
    rw [renderCommitsLoop_eq_zip, hlen]
  · show (["# Commits on branch: " ++ "main", "---"]
          ++ renderCommitsLoop (pySortByDateDesc [exC1, exC2, exC3])
              (pySortByDateDesc [exC1, exC2, exC3]).length) = _
    rw [hsort]
    decide

/-- Witness for C4 at the three-commit example. -/
theorem commit_history_rendered_descending_witness :
    ([exC1, exC2, exC3] : List CommitQueryResult) ≠ []
    ∧ (pySortByDateDesc [exC1, exC2, exC3]).Perm [exC1, exC2, exC3] :=
  ⟨by decide,
   (commit_history_rendered_descending [exC1, exC2, exC3] "main" (by decide)).2.1⟩

/-- C6.  Replies exist only for discussions: every comment built for an
issue or pull request has an empty reply sequence — even when the node
carries reply data — and rendering such a comment emits exactly its heading,
its body and the separator, never a level-3 Reply heading. -/
theorem issue_pr_comments_no_replies (dumptype : String)
    (hdt : dumptype = "issue" ∨ dumptype = "pullRequest") :
    (∀ node : CommentNode, (buildComment dumptype node).replies = [])
    ∧ ∀ (i : Nat) (node : CommentNode),
        renderCommentBlock i (buildComment dumptype node)
          = [commentHeading i (buildComment dumptype node), node.body, "---"] := by
  have hne : dumptype ≠ "discussion" := by
    rcases hdt with h | h <;> rw [h] <;> decide
  constructor
  · intro node
    simp [buildComment, hne]
  · intro i node
    simp [renderCommentBlock, buildComment, hne]

/-- Witness for C6: an issue comment node that does carry reply data still
yields an empty reply sequence and a reply-free rendering. -/
theorem issue_pr_comments_no_replies_witness :
    (buildComment "issue" exNodeWithReplies).replies = []
    ∧ renderCommentBlock 0 (buildComment "issue" exNodeWithReplies)
        = [commentHeading 0 (buildComment "issue" exNodeWithReplies),
           exNodeWithReplies.body, "---"] :=
  ⟨(issue_pr_comments_no_replies "issue" (Or.inl rfl)).1 exNodeWithReplies,
   (issue_pr_comments_no_replies "issue" (Or.inl rfl)).2 0 exNodeWithReplies⟩

/-- C8.  A commits run whose aggregation succeeds with zero commits is
tallied exactly like the branch-not-found case: one failure, no document —
because `if commits_query_result:` is falsy for the empty list just as for
`None`; and the zero-commit success is reachable (an existing ref with an
empty history page aggregates to `some []`). -/
theorem commits_empty_history_counted_failed :
    (∀ branch : String,
        runCommitsBranch (some []) branch
          = ({ fetch_processed := 0, fetch_failed := 1 }, none)
        ∧ runCommitsBranch (some []) branch = runCommitsBranch none branch)
    ∧ aggCommitsGo
        { errors := [],
          refHistory := some { pageInfo := { hasNextPage := false, endCursor := none },
                               edges := [] } }
        [] = some [] := by
  refine ⟨fun branch => ⟨rfl, rfl⟩, ?_⟩
  simp [aggCommitsGo, aggCommitsPages]

/-- The thread-driver fold counts one processed item and one written document
per successful fetch result, none for failures. -/
theorem runThreadNumbers_foldl (results : List (Option QueryResult)) :
    ∀ acc : Tally × Nat,
      (results.foldl runThreadStep acc).1.fetch_processed
          = acc.1.fetch_processed + (results.filterMap id).length
      ∧ (results.foldl runThreadStep acc).2
          = acc.2 + (results.filterMap id).length := by
  induction results with
  | nil => intro acc; simp
  | cons r rest ih =>
    intro acc
    cases r with
    | none =>
      have h := ih (runThreadStep acc none)
      constructor
      · rw [List.foldl_cons, h.1]
        simp [runThreadStep]
      · rw [List.foldl_cons, h.2]
        simp [runThreadStep]
    | some q =>
      have h := ih (runThreadStep acc (some q))
      constructor
      · rw [List.foldl_cons, h.1]
        simp [runThreadStep]
        omega
      · rw [List.foldl_cons, h.2]
        simp [runThreadStep]
        omega

/-- C9.  On a successful commits run the processed tally is the number of
fetched commit records (not the single processed item), while for every
other resource kind — the thread kinds' per-number loop and the
single-commit branch — the processed tally equals the number of
successfully written documents, one per success. -/
theorem processed_tally_semantics :
    (∀ (l : List CommitQueryResult) (branch : String), l ≠ [] →
        (runCommitsBranch (some l) branch).1.fetch_processed = l.length)
    ∧ (∀ results : List (Option QueryResult),
        (runThreadNumbers results).1.fetch_processed = (runThreadNumbers results).2)
    ∧ (∀ r : Option CommitQueryResult,
        (runCommitSha r).1.fetch_processed
          = if (runCommitSha r).2.isSome = true then 1 else 0) := by
  refine ⟨?_, ?_, ?_⟩
  · intro l branch hl
    cases l with
    | nil => exact absurd rfl hl
    | cons c rest => rfl
  · intro results
    have h := runThreadNumbers_foldl results
      ({ fetch_processed := 0, fetch_failed := 0 }, 0)
    simp only [runThreadNumbers, h.1, h.2]
  · intro r
    cases r with
    | none => rfl
    | some c => rfl

/-- Witness for C9 at a concrete two-commit run. -/
theorem processed_tally_semantics_witness :
    ([exC1, exC2] : List CommitQueryResult) ≠ []
    ∧ (runCommitsBranch (some [exC1, exC2]) "main").1.fetch_processed
        = ([exC1, exC2] : List CommitQueryResult).length :=
  ⟨by decide, processed_tally_semantics.1 [exC1, exC2] "main" (by decide)⟩

/-- C10.  The commit renderer reorders the caller's list: after the call the
caller-visible list state is the descending-by-date sort of the input (here
the in-place `list.sort` is modelled by returning the final list state), and
on an unsorted input that state differs from the original list. -/
theorem commits_renderer_sorts_caller_list :
    (∀ (commits : List CommitQueryResult) (branch : String),
        (output_commits_to_single_markdown commits branch).2
          = pySortByDateDesc commits)
    ∧ (output_commits_to_single_markdown [exC1, exC2, exC3] "main").2
        = [exC2, exC3, exC1]
    ∧ (output_commits_to_single_markdown [exC1, exC2, exC3] "main").2
        ≠ [exC1, exC2, exC3] := by
  have hsort : pySortByDateDesc [exC1, exC2, exC3] = [exC2, exC3, exC1] := by
    simp [pySortByDateDesc, List.mergeSort, List.splitInTwo, List.merge,
      commitDateDesc, exC1, exC2, exC3]
  refine ⟨fun commits branch => rfl, hsort, ?_⟩
  rw [show (output_commits_to_single_markdown [exC1, exC2, exC3] "main").2
        = pySortByDateDesc [exC1, exC2, exC3] from rfl, hsort]
  decide

/-- A successful `rfind` returns a valid index holding the sought
character. -/
theorem pyRfind_spec (c : Char) :
    ∀ l : List Char, 0 ≤ pyRfind l c →
      (pyRfind l c).toNat < l.length ∧ l[(pyRfind l c).toNat]? = some c := by
  intro l
  induction l with
  | nil =>
    intro h
    simp only [pyRfind] at h
    exact absurd h (by decide)
  | cons a rest ih =>
    intro h
    by_cases hr : 0 ≤ pyRfind rest c
    · obtain ⟨h1, h2⟩ := ih hr
      have hval : pyRfind (a :: rest) c = pyRfind rest c + 1 := by
        simp only [pyRfind]
        rw [if_pos hr]
      have htn : (pyRfind rest c + 1).toNat = (pyRfind rest c).toNat + 1 := by
        omega
      rw [hval, htn]
      exact ⟨by simpa using Nat.succ_lt_succ h1, by simpa using h2⟩
    · by_cases hac : a = c
      · have hval : pyRfind (a :: rest) c = 0 := by
          simp only [pyRfind]
          rw [if_neg hr, if_pos hac]
        rw [hval]
        exact ⟨by simp, by simp [hac]⟩
      · have hval : pyRfind (a :: rest) c = -1 := by
          simp only [pyRfind]
          rw [if_neg hr, if_neg hac]
        rw [hval] at h
        exact absurd h (by decide)

/-- When the `max` of the three `rfind` results is positive, it is a valid
index of the truncated string holding a separator character. -/
theorem lastSpaceOf_spec (t : List Char) (h : 0 < lastSpaceOf t) :
    (lastSpaceOf t).toNat < t.length
    ∧ ∃ c, t[(lastSpaceOf t).toNat]? = some c ∧ isSepChar c = true := by
  have hcases : lastSpaceOf t = pyRfind t ' '
      ∨ lastSpaceOf t = pyRfind t '_' ∨ lastSpaceOf t = pyRfind t '-' := by
    unfold lastSpaceOf
    rcases max_choice (pyRfind t ' ') (max (pyRfind t '_') (pyRfind t '-')) with h1 | h1
    · exact Or.inl h1
    · rcases max_choice (pyRfind t '_') (pyRfind t '-') with h2 | h2
      · exact Or.inr (Or.inl (h1.trans h2))
      · exact Or.inr (Or.inr (h1.trans h2))
  rcases hcases with he | he | he
  · rw [he] at h ⊢
    obtain ⟨h1, h2⟩ := pyRfind_spec ' ' t (le_of_lt h)
    exact ⟨h1, ' ', h2, by decide⟩
  · rw [he] at h ⊢
    obtain ⟨h1, h2⟩ := pyRfind_spec '_' t (le_of_lt h)
    exact ⟨h1, '_', h2, by decide⟩
  · rw [he] at h ⊢
    obtain ⟨h1, h2⟩ := pyRfind_spec '-' t (le_of_lt h)
    exact ⟨h1, '-', h2, by decide⟩

/-- `rstrip` keeps a prefix of its input, and every dropped character is a
separator. -/
theorem pyRstrip_take :
    ∀ l : List Char, ∃ m, m ≤ l.length ∧ pyRstrip l = l.take m
      ∧ ∀ k c, m ≤ k → l[k]? = some c → isSepChar c = true := by
  intro l
  induction l with
  | nil =>
    refine ⟨0, by simp, rfl, ?_⟩
    intro k c _ hk
    simp at hk
  | cons a rest ih =>
    obtain ⟨m, hm, heq, hall⟩ := ih
    by_cases hcond : ((pyRstrip rest).isEmpty && isSepChar a) = true
    · have hval : pyRstrip (a :: rest) = [] := by
        simp only [pyRstrip]
        rw [if_pos hcond]
      rw [Bool.and_eq_true] at hcond
      obtain ⟨hemp, hsep⟩ := hcond
      refine ⟨0, by simp, by simp [hval], ?_⟩
      intro k c _ hk
      cases k with
      | zero =>
        rw [List.getElem?_cons_zero] at hk
        cases hk
        exact hsep
      | succ k =>
        rw [List.getElem?_cons_succ] at hk
        have hnil : pyRstrip rest = [] := List.isEmpty_iff.mp hemp
        rw [hnil] at heq
        rcases (List.take_eq_nil_iff).mp heq.symm with hm0 | hrest
        · exact hall k c (hm0 ▸ Nat.zero_le k) hk
        · rw [hrest] at hk
          simp at hk
    · have hval : pyRstrip (a :: rest) = a :: pyRstrip rest := by
        simp only [pyRstrip]
        rw [if_neg hcond]
      refine ⟨m + 1, by simpa using Nat.succ_le_succ hm, ?_, ?_⟩
      · rw [hval, List.take_succ_cons, heq]
      · intro k c hk hget
        cases k with
        | zero => exact absurd hk (by omega)
        | succ k =>
          rw [List.getElem?_cons_succ] at hget
          exact hall k c (Nat.le_of_succ_le_succ hk) hget

/-- The result of `rstrip` never ends in a separator character. -/
theorem pyRstrip_noTrailingSep : ∀ l : List Char, noTrailingSep (pyRstrip l) = true := by
  intro l
  induction l with
  | nil => rfl
  | cons a rest ih =>
    by_cases hcond : ((pyRstrip rest).isEmpty && isSepChar a) = true
    · have hval : pyRstrip (a :: rest) = [] := by
        simp only [pyRstrip]
        rw [if_pos hcond]
      rw [hval]
      rfl
    · have hval : pyRstrip (a :: rest) = a :: pyRstrip rest := by
        simp only [pyRstrip]
        rw [if_neg hcond]
      rw [hval]
      cases hrest : pyRstrip rest with
      | nil =>
        have hsep : isSepChar a = false := by
          rw [hrest] at hcond
          simpa using hcond
        simp [noTrailingSep, hsep]
      | cons b u =>
        rw [hrest] at ih
        simpa only [noTrailingSep, List.getLast?_cons_cons] using ih

/-- The short branch of `sanitize_filename`. -/
theorem sanitize_eq_of_short (t : List Char) (ml : Nat)
    (h : (pySubSanitize t).length ≤ ml) :
    sanitize_filename t ml = pySubSanitize t := by
  simp only [sanitize_filename]
  rw [if_pos h]

/-- The backtracking branch of `sanitize_filename`. -/
theorem sanitize_eq_of_long_sep (t : List Char) (ml : Nat)
    (h : ¬ (pySubSanitize t).length ≤ ml)
    (hsep : 0 < lastSpaceOf ((pySubSanitize t).take ml)) :
    sanitize_filename t ml
      = pyRstrip (((pySubSanitize t).take ml).take
          (lastSpaceOf ((pySubSanitize t).take ml)).toNat) := by
  simp only [sanitize_filename]
  rw [if_neg h, if_pos hsep]

/-- The hard-cut fallback branch of `sanitize_filename`. -/
theorem sanitize_eq_of_long_nosep (t : List Char) (ml : Nat)
    (h : ¬ (pySubSanitize t).length ≤ ml)
    (hsep : ¬ 0 < lastSpaceOf ((pySubSanitize t).take ml)) :
    sanitize_filename t ml = (pySubSanitize t).take ml := by
  simp only [sanitize_filename]
  rw [if_neg h, if_neg hsep]

/-- Every character of a substituted string is in the kept class (kept
characters stay, everything else became an underscore, which is kept). -/
theorem keptChar_of_mem_sub (s : List Char) (c : Char) (hc : c ∈ pySubSanitize s) :
    keptChar c = true := by
  simp only [pySubSanitize, List.mem_map] at hc
  obtain ⟨a, _, ha⟩ := hc
  by_cases hk : keptChar a = true
  · rw [← ha, if_pos hk]
    exact hk
  · rw [← ha, if_neg hk]
    decide

/-- Substitution is the identity on strings made of kept characters. -/
theorem pySubSanitize_of_kept :
    ∀ l : List Char, (∀ c ∈ l, keptChar c = true) → pySubSanitize l = l := by
  intro l
  induction l with
  | nil => intro _; rfl
  | cons a t ih =>
    intro h
    have ha : keptChar a = true := h a (List.mem_cons_self a t)
    have ht : pySubSanitize t = t := ih (fun c hc => h c (List.mem_cons_of_mem a hc))
    simp only [pySubSanitize, List.map_cons] at ht ⊢
    rw [ht, if_pos ha]

/-- The sanitized string is a prefix of the substituted string and fits the
length limit. -/
theorem sanitize_take_length (s : List Char) (ml : Nat) :
    ∃ m, sanitize_filename s ml = (pySubSanitize s).take m
      ∧ (sanitize_filename s ml).length ≤ ml := by
  by_cases hle : (pySubSanitize s).length ≤ ml
  · rw [sanitize_eq_of_short s ml hle]
    exact ⟨(pySubSanitize s).length, (List.take_length _).symm, hle⟩
  · by_cases hsep : 0 < lastSpaceOf ((pySubSanitize s).take ml)
    · rw [sanitize_eq_of_long_sep s ml hle hsep]
      obtain ⟨m, _, heq, _⟩ := pyRstrip_take
        (((pySubSanitize s).take ml).take
          (lastSpaceOf ((pySubSanitize s).take ml)).toNat)
      rw [heq, List.take_take, List.take_take]
      refine ⟨_, rfl, ?_⟩
      exact le_trans (List.length_take_le _ _) (min_le_right _ _)
    · rw [sanitize_eq_of_long_nosep s ml hle hsep]
      exact ⟨ml, rfl, List.length_take_le _ _⟩

/-- C7.  Filename sanitization is idempotent: sanitizing an
already-sanitized string returns it unchanged. -/
theorem sanitize_filename_idempotent (s : List Char) :
    sanitize_filename (sanitize_filename s 120) 120 = sanitize_filename s 120 := by
  obtain ⟨m, hm, hlen⟩ := sanitize_take_length s 120
  have hsub : pySubSanitize (sanitize_filename s 120) = sanitize_filename s 120 := by
    apply pySubSanitize_of_kept
    intro c hc
    rw [hm] at hc
    exact keptChar_of_mem_sub s c (List.take_subset _ _ hc)
  rw [sanitize_eq_of_short _ 120 (by rw [hsub]; exact hlen), hsub]

/-- In the backtracking branch of truncation, the result ends at a separator
boundary of the substituted string. -/
theorem truncation_boundary_aux (f : List Char) (hlong : 120 < f.length)
    (hls : 0 < lastSpaceOf (f.take 120)) :
    endsAtSepBoundary f
      (pyRstrip ((f.take 120).take (lastSpaceOf (f.take 120)).toNat)) = true := by
  obtain ⟨hlt, c0, hc0, hsep0⟩ := lastSpaceOf_spec (f.take 120) hls
  have htlen : (f.take 120).length = 120 := by
    rw [List.length_take]
    omega
  rw [htlen] at hlt
  obtain ⟨m, hm_le, heq, hall⟩ :=
    pyRstrip_take ((f.take 120).take (lastSpaceOf (f.take 120)).toNat)
  have hlen2 : ((f.take 120).take (lastSpaceOf (f.take 120)).toNat).length
      = (lastSpaceOf (f.take 120)).toNat := by
    rw [List.length_take, htlen]
    omega
  rw [hlen2] at hm_le
  have hr : pyRstrip ((f.take 120).take (lastSpaceOf (f.take 120)).toNat)
      = f.take m := by
    rw [heq, List.take_take, List.take_take]
    congr 1
    omega
  have hboundary : ∃ c, f[m]? = some c ∧ isSepChar c = true := by
    rcases Nat.lt_or_ge m (lastSpaceOf (f.take 120)).toNat with hmlt | hmge
    · have hmlen : m < ((f.take 120).take (lastSpaceOf (f.take 120)).toNat).length := by
        rw [hlen2]
        exact hmlt
      obtain ⟨c, hc⟩ :
          ∃ c, ((f.take 120).take (lastSpaceOf (f.take 120)).toNat)[m]? = some c := by
        rw [List.getElem?_eq_getElem hmlen]
        exact ⟨_, rfl⟩
      refine ⟨c, ?_, hall m c (le_refl m) hc⟩
      rw [List.getElem?_take_of_lt hmlt, List.getElem?_take_of_lt (by omega : m < 120)] at hc
      exact hc
    · have hmeq : m = (lastSpaceOf (f.take 120)).toNat := le_antisymm hm_le hmge
      refine ⟨c0, ?_, hsep0⟩
      rw [List.getElem?_take_of_lt hlt] at hc0
      rw [hmeq]
      exact hc0
  obtain ⟨c, hcf, hcsep⟩ := hboundary
  unfold endsAtSepBoundary
  rw [List.any_eq_true]
  refine ⟨m, List.mem_range.mpr (by omega), ?_⟩
  rw [hr]
  simp [hcf, hcsep]

/-- C5 amended.  For every title whose substituted form exceeds 120
characters: when a space/underscore/hyphen occurs at an index at least 1
within the first 120 characters, the produced segment ends at such a
separator boundary and has no trailing space, underscore or hyphen; when no
such separator exists, the segment is the raw 120-character prefix, which
may split a word. -/
theorem truncation_boundary_amended (s : List Char)
    (hlong : 120 < (pySubSanitize s).length) :
    (0 < lastSpaceOf ((pySubSanitize s).take 120) →
        endsAtSepBoundary (pySubSanitize s) (sanitize_filename s 120) = true
        ∧ noTrailingSep (sanitize_filename s 120) = true)
    ∧ (lastSpaceOf ((pySubSanitize s).take 120) ≤ 0 →
        sanitize_filename s 120 = (pySubSanitize s).take 120) := by
  have hnotle : ¬ (pySubSanitize s).length ≤ 120 := by omega
  constructor
  · intro hls
    rw [sanitize_eq_of_long_sep s 120 hnotle hls]
    exact ⟨truncation_boundary_aux (pySubSanitize s) hlong hls,
           pyRstrip_noTrailingSep _⟩
  · intro hle
    exact sanitize_eq_of_long_nosep s 120 hnotle (by omega)

set_option maxRecDepth 40000 in
/-- Counterexample to C5: a 121-character single-word title (its own first
line) sanitizes to the raw 120-character prefix, which does not end at a
space/underscore/hyphen boundary — the word is split mid-word. -/
theorem truncation_splits_word_counterexample :
    firstLine exLongWord = exLongWord
    ∧ 120 < (pySubSanitize exLongWord).length
    ∧ sanitize_filename exLongWord 120 = List.replicate 120 'a'
    ∧ endsAtSepBoundary (pySubSanitize exLongWord)
        (sanitize_filename exLongWord 120) = false := by
  refine ⟨by decide, by decide, by decide, by decide⟩

set_option maxRecDepth 40000 in
/-- Witness for the amended C5 at a 126-character title with a space at
index 60. -/
theorem truncation_boundary_amended_witness :
    120 < (pySubSanitize exSepTitle).length
    ∧ 0 < lastSpaceOf ((pySubSanitize exSepTitle).take 120)
    ∧ (endsAtSepBoundary (pySubSanitize exSepTitle)
          (sanitize_filename exSepTitle 120) = true
       ∧ noTrailingSep (sanitize_filename exSepTitle 120) = true) :=
  ⟨by decide, by decide,
   (truncation_boundary_amended exSepTitle (by decide)).1 (by decide)⟩
